import Mathlib

/-!
Shallow embedding of the core fact-checking pipeline of the
LLM-Fact-Checker repository (`src/fact_checker.py`, `src/claim_extractor.py`),
together with theorems settling the spec claims about it.

Python floats are modelled as rationals (`ℚ`); the constants `0.2` and
`1e-6` of the source become `1/5` and `1/1000000`.  External NLP and
embedding services (spaCy, sentence-transformers) are parameters of the
embedded functions; the external FAISS flat L2 index is modelled from the
spec where noted.
-/

namespace FactCheck

/-! ### Numeric extraction (`extract_numbers`, src/fact_checker.py lines 17-23)

The source removes every comma from the text and then collects the matches
of the regular expression `\d+(?:\.\d+)?` left to right, converting each to
a float.  `scanTokens` is that scan: each match is a pair
(integer digits, fractional digits), the fractional part present only when
a dot directly follows the integer digits and is directly followed by a
digit.  -/

/-- Longest leading run of decimal digits of a character list, with the rest. -/
def takeDigits : List Char → List Char × List Char
  | [] => ([], [])
  | c :: cs =>
    if c.isDigit then
      let p := takeDigits cs
      (c :: p.1, p.2)
    else ([], c :: cs)

/-- Left-to-right, non-overlapping matches of `\d+(?:\.\d+)?` in a character
list, each match returned as (integer digits, fractional digits).  `fuel`
bounds the recursion; `fuel = l.length` is always enough because every step
consumes at least one character. -/
def scanTokens : Nat → List Char → List (List Char × List Char)
  | 0, _ => []
  | _ + 1, [] => []
  | fuel + 1, c :: cs =>
    if c.isDigit then
      let p := takeDigits cs
      match p.2 with
      | '.' :: d :: r =>
        if d.isDigit then
          let q := takeDigits r
          (c :: p.1, d :: q.1) :: scanTokens fuel q.2
        else
          (c :: p.1, []) :: scanTokens fuel ('.' :: d :: r)
      | r => (c :: p.1, []) :: scanTokens fuel r
    else
      scanTokens fuel cs

/-- Decimal value of a digit string, most significant digit first. -/
def digitsToNat (ds : List Char) : Nat :=
  ds.foldl (fun n c => 10 * n + (c.toNat - 48)) 0

/-- Value of one regex match: integer part plus fractional part, as the
`float(...)` conversion of the matched string. -/
def tokenVal (t : List Char × List Char) : ℚ :=
  (digitsToNat t.1 : ℚ) + (digitsToNat t.2 : ℚ) / (10 : ℚ) ^ t.2.length

/-- `extract_numbers`: delete every comma, then collect the values of the
matches of `\d+(?:\.\d+)?` in order. -/
def extractNumbers (text : String) : List ℚ :=
  let l := text.data.filter (fun c => c ≠ ',')
  (scanTokens l.length l).map tokenVal

/-! ### Data model

`RetrievedFact` is one row of the corpus metadata (`build_index.py` writes
`id`, `source`, `date`, `statement`, all strings) with the retrieval
distance attached as `score`.  `VerdictRecord` is the dictionary returned
by `classify_claim`. -/

/-- One corpus metadata row, as written by `save_metadata` in
`src/build_index.py`. -/
structure FactMeta where
  id : String
  source : String
  date : String
  statement : String
deriving DecidableEq

/-- A retrieved fact: a copy of a metadata row with the raw distance
attached as `score` (`VectorStore.retrieve`). -/
structure RetrievedFact where
  id : String
  source : String
  date : String
  statement : String
  score : ℚ
deriving DecidableEq

/-- The dictionary returned by `FactChecker.classify_claim`. -/
structure VerdictRecord where
  claim : String
  retrieved_facts : List RetrievedFact
  verdict : String
  reasoning : String
  evidence : List String
deriving DecidableEq

/-- A claim produced by `ClaimExtractor.extract_claims`. -/
structure Claim where
  sentence : String
  entities : List String
deriving DecidableEq

/-! ### Verdict classification (`FactChecker.classify_claim`) -/

def noFactsReasoning : String :=
  "No relevant official facts were retrieved for this claim."

def trueReasoning (c f : ℚ) : String :=
  "The claim mentions " ++ toString c ++
    ", which is close to the official PIB figure " ++ toString f ++
    ". This matches the retrieved evidence."

def falseReasoning (c f : ℚ) : String :=
  "The claim mentions " ++ toString c ++ ", but the official PIB figure is " ++
    toString f ++ ", which is significantly different. " ++
    "Therefore, the claim is considered False."

def noNumbersReasoning : String :=
  "The claim does not contain numeric information comparable to official PIB facts, " ++
    "or the retrieved fact does not match closely enough to verify."

/-- Body of `classify_claim` after the retrieval call: the source constants
`0.2` and `1e-6` are the rationals `1/5` and `1/1000000`. -/
def classifyClaimOn (retrieved : List RetrievedFact) (claim : String) : VerdictRecord :=
  match retrieved with
  | [] =>
    { claim := claim, retrieved_facts := [], verdict := "Unverifiable",
      reasoning := noFactsReasoning, evidence := [] }
  | top :: rest =>
    let top_fact := top.statement
    match extractNumbers claim, extractNumbers top_fact with
    | c :: _, f :: _ =>
      let rel_diff := |c - f| / max |f| (1 / 1000000)
      if rel_diff ≤ 1 / 5 then
        { claim := claim, retrieved_facts := top :: rest, verdict := "True",
          reasoning := trueReasoning c f,
          evidence := ((top :: rest).take 3).map (fun fact => fact.statement) }
      else
        { claim := claim, retrieved_facts := top :: rest, verdict := "False",
          reasoning := falseReasoning c f,
          evidence := ((top :: rest).take 3).map (fun fact => fact.statement) }
    | _, _ =>
      { claim := claim, retrieved_facts := top :: rest, verdict := "Unverifiable",
        reasoning := noNumbersReasoning, evidence := [] }

/-- `FactChecker.classify_claim`, parametric in the retrieval service
`retr` (in the source, `self.vector_store.retrieve` with its default
`top_k`). -/
def classifyClaim (retr : String → List RetrievedFact) (claim : String) : VerdictRecord :=
  classifyClaimOn (retr claim) claim

/-! ### Claim extraction (`ClaimExtractor.extract_claims`)

The spaCy pipeline is external; it enters the embedding as the capability
record `NLP`: `sents` segments a text into sentences, `entsOf` gives the
entity texts of a sentence, `hasVerb` tells whether some token of the
sentence is a verb. -/

structure NLP where
  sents : String → List String
  entsOf : String → List String
  hasVerb : String → Bool

/-- Model of Python `str.strip()`: remove leading and trailing whitespace. -/
def pyStrip (s : String) : String :=
  ⟨((s.data.dropWhile Char.isWhitespace).reverse.dropWhile Char.isWhitespace).reverse⟩

/-- `ClaimExtractor.extract_claims`: keep exactly the sentences that have at
least one entity and at least one verb token; the kept claim stores the
stripped sentence and its entities. -/
def extractClaims (nlp : NLP) (text : String) : List Claim :=
  (nlp.sents text).filterMap (fun s =>
    if nlp.entsOf s ≠ [] ∧ nlp.hasVerb s then
      some { sentence := pyStrip s, entities := nlp.entsOf s }
    else none)

/-! ### Pipeline orchestrator (`FactChecker.fact_check_text`) -/

/-- `FactChecker.fact_check_text`: extract claims; on `[]` return `[]`;
otherwise classify each claim in order. -/
def factCheckText (nlp : NLP) (retr : String → List RetrievedFact)
    (text : String) : List VerdictRecord :=
  let claims := extractClaims nlp text
  if claims.isEmpty then []
  else claims.map (fun c => classifyClaim retr c.sentence)

/-! ### Fallible variant

A run-time failure inside the classification of one claim (in the source:
any exception raised below `classify_claim`, e.g. by the embedding model or
the index search inside `retrieve`) is modelled by a retrieval service in
`Except`.  `fact_check_text` contains no handler around the per-claim
calls, so the embedding propagates the first error, exactly as the Python
list comprehension `[self.classify_claim(c["sentence"]) for c in claims]`
lets an exception escape. -/

def classifyClaimE (retr : String → Except String (List RetrievedFact))
    (claim : String) : Except String VerdictRecord :=
  match retr claim with
  | Except.error e => Except.error e
  | Except.ok retrieved => Except.ok (classifyClaimOn retrieved claim)

/-- The list comprehension of `fact_check_text`: claims are classified left
to right and the first raised error aborts the remainder. -/
def mapClassifyE (retr : String → Except String (List RetrievedFact)) :
    List Claim → Except String (List VerdictRecord)
  | [] => Except.ok []
  | c :: cs =>
    match classifyClaimE retr c.sentence with
    | Except.error e => Except.error e
    | Except.ok r =>
      match mapClassifyE retr cs with
      | Except.error e => Except.error e
      | Except.ok rs => Except.ok (r :: rs)

/-- `fact_check_text` over the fallible retrieval service. -/
def factCheckTextE (nlp : NLP) (retr : String → Except String (List RetrievedFact))
    (text : String) : Except String (List VerdictRecord) :=
  let claims := extractClaims nlp text
  if claims.isEmpty then Except.ok []
  else mapClassifyE retr claims

/-! ### Retrieval (`VectorStore.retrieve`)

The FAISS index and the sentence-transformers encoder are external
libraries.  The encoder enters as the function field `embedder`; the flat
L2 index is modelled from the spec. -/

/-- Squared Euclidean distance of two vectors. -/
def l2sq (u v : List ℚ) : ℚ :=
  (List.zipWith (fun a b => (a - b) ^ 2) u v).sum

/-- Order on (distance, position) pairs: ascending distance, equal-distance
ties by the original insertion position. -/
def hitLE (a b : ℚ × Nat) : Prop :=
  a.1 < b.1 ∨ (a.1 = b.1 ∧ a.2 ≤ b.2)

instance : DecidableRel hitLE := fun a b =>
  inferInstanceAs (Decidable (a.1 < b.1 ∨ (a.1 = b.1 ∧ a.2 ≤ b.2)))

instance : IsTotal (ℚ × Nat) hitLE :=
  ⟨fun a b => by
    rcases lt_trichotomy a.1 b.1 with h | h | h
    · exact Or.inl (Or.inl h)
    · rcases Nat.le_total a.2 b.2 with h2 | h2
      · exact Or.inl (Or.inr ⟨h, h2⟩)
      · exact Or.inr (Or.inr ⟨h.symm, h2⟩)
    · exact Or.inr (Or.inl h)⟩

instance : IsTrans (ℚ × Nat) hitLE :=
  ⟨fun a b c hab hbc => by
    rcases hab with h1 | ⟨e1, l1⟩
    · rcases hbc with h2 | ⟨e2, _⟩
      · exact Or.inl (h1.trans h2)
      · exact Or.inl (e2 ▸ h1)
    · rcases hbc with h2 | ⟨e2, l2⟩
      · exact Or.inl (e1 ▸ h2)
      · exact Or.inr ⟨e1.trans e2, l1.trans l2⟩⟩

/-- Modelled from the spec: the k-nearest-neighbour query of the external
FAISS `IndexFlatL2` (not part of this repository).  It returns the
(squared L2 distance, position) pairs of the `k` stored vectors closest to
the query, in ascending distance order, equal-distance ties broken by the
original insertion order. -/
def searchFlat (vecs : List (List ℚ)) (q : List ℚ) (k : Nat) : List (ℚ × Nat) :=
  (List.insertionSort hitLE (vecs.enum.map (fun p => (l2sq q p.2, p.1)))).take k

/-- Default `top_k` (`TOP_K` in `src/config.py`). -/
def TOP_K : Nat := 5

/-- The state loaded by `VectorStore.__init__`: the index, the parallel
metadata table and the embedding model. -/
structure VectorStore where
  index : List (List ℚ)
  metadata : List FactMeta
  embedder : String → List ℚ

/-- `meta["score"] = float(dist)` on a fresh copy of the metadata row. -/
def attachScore (m : FactMeta) (d : ℚ) : RetrievedFact :=
  { id := m.id, source := m.source, date := m.date,
    statement := m.statement, score := d }

def defaultMeta : FactMeta := { id := "", source := "", date := "", statement := "" }

/-- `VectorStore.retrieve`: embed the query, search the index, map each
returned position to its metadata row with the raw distance attached as
`score`. -/
def VectorStore.retrieve (vs : VectorStore) (query : String) (k : Nat := TOP_K) :
    List RetrievedFact :=
  let q := vs.embedder query
  let hits := searchFlat vs.index q k
  hits.map (fun p => attachScore (vs.metadata.getD p.2 defaultMeta) p.1)

/-! ### Heap model of the metadata table and retrieval copies

Python's `self.metadata` is a list of heap-allocated dictionaries and
`retrieve` builds `dict(self.metadata[idx])` — a fresh copy — before
attaching `score`.  To reason about aliasing and caller-side mutation this
second model makes the heap explicit: a heap is a list of dictionaries,
an address is a position in it, and `self.metadata` is a list of
addresses.  `retrieveH` allocates one fresh dictionary per hit, exactly as
the loop body of the source does. -/

/-- A Python value stored in a metadata dictionary: the metadata fields are
strings, the attached `score` is a float. -/
inductive Val where
  | str : String → Val
  | num : ℚ → Val
deriving DecidableEq

/-- A Python dictionary with string keys. -/
abbrev Dict := List (String × Val)

/-- `d[k] = v`: replace the binding of `k` when present, else append it. -/
def Dict.setKey (d : Dict) (k : String) (v : Val) : Dict :=
  if d.any (fun p => p.1 = k) then
    d.map (fun p => if p.1 = k then (k, v) else p)
  else d ++ [(k, v)]

/-- `d[k]` when it is a string, `""` otherwise. -/
def Dict.getStr (d : Dict) (k : String) : String :=
  match (d.find? (fun p => p.1 = k)).map (fun p => p.2) with
  | some (Val.str s) => s
  | _ => ""

/-- Read the dictionary stored at address `a`. -/
def readDict (h : List Dict) (a : Nat) : Dict :=
  h.getD a []

/-- Runtime state of a loaded `VectorStore` with an explicit heap. -/
structure RtState where
  heap : List Dict
  metaAddrs : List Nat
  index : List (List ℚ)
  embedder : String → List ℚ

/-- Every metadata address points into the heap. -/
def RtState.WF (st : RtState) : Prop :=
  ∀ a ∈ st.metaAddrs, a < st.heap.length

/-- `VectorStore.retrieve` on the explicit heap: for each search hit, copy
the metadata row at the returned position, set `score` on the copy, and
allocate it at a fresh address.  Returns the addresses of the fresh copies
and the grown state. -/
def retrieveH (st : RtState) (query : String) (k : Nat) : List Nat × RtState :=
  let hits := searchFlat st.index (st.embedder query) k
  let rows := hits.map (fun p =>
    Dict.setKey (readDict st.heap (st.metaAddrs.getD p.2 0)) "score" (Val.num p.1))
  (List.range' st.heap.length rows.length,
   { st with heap := st.heap ++ rows })

/-- View of a retrieved dictionary as a `RetrievedFact` value. -/
def dictToFact (d : Dict) : RetrievedFact :=
  { id := d.getStr "id", source := d.getStr "source", date := d.getStr "date",
    statement := d.getStr "statement",
    score := match (d.find? (fun p => p.1 = "score")).map (fun p => p.2) with
             | some (Val.num q) => q
             | _ => 0 }

/-- `classify_claim` on the explicit heap, with `retrieved_facts` and
`evidence` read back from the freshly allocated copies. -/
def classifyH (st : RtState) (claim : String) : VerdictRecord × RtState :=
  let pr := retrieveH st claim TOP_K
  let dicts := pr.1.map (readDict pr.2.heap)
  (classifyClaimOn (dicts.map dictToFact) claim, pr.2)

/-- A sequence of retrieval calls applied to a loaded store. -/
def applyRetrieves (st : RtState) (calls : List (String × Nat)) : RtState :=
  calls.foldl (fun s c => (retrieveH s c.1 c.2).2) st

/-! ### Concrete instances used in closed checks -/

/-- A retrieval service for concrete checks: one official fact whose
statement is the single numeral `40`. -/
def factForty : RetrievedFact :=
  { id := "1", source := "PIB", date := "2024-01-01", statement := "40", score := 0 }

def retrForty : String → List RetrievedFact := fun _ => [factForty]

/-- An NLP capability for concrete checks: the whole text is one sentence,
every sentence has one entity and a verb. -/
def nlpOne : NLP :=
  { sents := fun t => [t], entsOf := fun _ => ["India"], hasVerb := fun _ => true }

/-- A retrieval service that never returns a hit. -/
def retrEmpty : String → List RetrievedFact := fun _ => []

/-- An NLP capability for concrete checks whose entity recogniser finds
nothing. -/
def nlpNoEnts : NLP :=
  { sents := fun t => [t], entsOf := fun _ => [], hasVerb := fun _ => true }

/-- An NLP capability whose segmenter yields two claim sentences. -/
def nlpTwo : NLP :=
  { sents := fun _ => ["A one.", "B two."],
    entsOf := fun _ => ["E"],
    hasVerb := fun _ => true }

/-- A fallible retrieval service that raises on the first claim sentence
and succeeds on every other. -/
def retrBoom : String → Except String (List RetrievedFact) :=
  fun s => if s = "A one." then Except.error "boom" else Except.ok []

def rowA : FactMeta :=
  { id := "1", source := "PIB", date := "2024-01-01", statement := "A" }

def rowB : FactMeta :=
  { id := "2", source := "PIB", date := "2024-01-02", statement := "B" }

/-- A two-row store whose index and metadata are aligned. -/
def vsTwo : VectorStore :=
  { index := [[], []], metadata := [rowA, rowB], embedder := fun _ => [] }

/-- A one-row loaded store on the explicit heap. -/
def stOne : RtState :=
  { heap := [[("id", Val.str "1"), ("source", Val.str "PIB"),
      ("date", Val.str "2024-01-01"), ("statement", Val.str "40")]],
    metaAddrs := [0],
    index := [[]],
    embedder := fun _ => [] }

/-! ## Helper lemmas -/

/-- Evaluation helper: once the character scan of a concrete string is
computed, `extractNumbers` is the token values. -/
theorem extractNumbers_eq_of_scan (s : String) (ts : List (List Char × List Char))
    (h : scanTokens (s.data.filter (fun c => c ≠ ',')).length
      (s.data.filter (fun c => c ≠ ',')) = ts) :
    extractNumbers s = ts.map tokenVal := by
  rw [extractNumbers]
  exact congrArg (List.map tokenVal) h

/-- Every token value is a nonnegative rational: an integer part plus a
nonnegative fraction. -/
theorem tokenVal_nonneg (t : List Char × List Char) : 0 ≤ tokenVal t := by
  unfold tokenVal
  have h2 : (0:ℚ) ≤ (digitsToNat t.2 : ℚ) / (10:ℚ) ^ t.2.length :=
    div_nonneg (Nat.cast_nonneg _) (by positivity)
  have h1 : (0:ℚ) ≤ (digitsToNat t.1 : ℚ) := Nat.cast_nonneg _
  linarith

theorem extractNumbers_neg40 : extractNumbers "-40" = [40] := by
  rw [extractNumbers_eq_of_scan "-40" [(['4', '0'], [])] (by decide)]
  simp [tokenVal, digitsToNat]

theorem extractNumbers_40 : extractNumbers "40" = [40] := by
  rw [extractNumbers_eq_of_scan "40" [(['4', '0'], [])] (by decide)]
  simp [tokenVal, digitsToNat]

/-! ## Claim theorems -/

/-- C9: every value returned by `extract_numbers` is nonnegative — the
pattern captures only digit sequences with an optional decimal part, a
minus sign is never part of the literal — and consequently a claim
stating `-40` checked against an official figure `40` compares equal and
gets verdict `"True"`. -/
theorem extract_numbers_nonneg :
    (∀ (text : String) (x : ℚ), x ∈ extractNumbers text → 0 ≤ x) ∧
    extractNumbers "-40" = [40] ∧
    (classifyClaim retrForty "-40").verdict = "True" := by
  refine ⟨?_, extractNumbers_neg40, ?_⟩
  · intro text x hx
    rw [extractNumbers] at hx
    rcases List.mem_map.1 hx with ⟨t, _, rfl⟩
    exact tokenVal_nonneg t
  · show (classifyClaimOn [factForty] "-40").verdict = "True"
    have hstmt : factForty.statement = "40" := rfl
    simp only [classifyClaimOn, hstmt, extractNumbers_neg40, extractNumbers_40]
    rw [if_pos (by rw [sub_self, abs_zero, zero_div]; norm_num)]

/-- C9 witness: the nonnegativity theorem applied to the concrete text
`"-40"` and its extracted value `40`. -/
theorem extract_numbers_nonneg_witness :
    (40:ℚ) ∈ extractNumbers "-40" ∧ (0:ℚ) ≤ 40 :=
  ⟨extractNumbers_neg40 ▸ List.mem_singleton.2 rfl,
   extract_numbers_nonneg.1 "-40" 40 (extractNumbers_neg40 ▸ List.mem_singleton.2 rfl)⟩

/-- C10: `extract_numbers` deletes every comma before matching, so two
digit groups joined by a comma merge into one literal (`"1,5"` gives the
single value `15`), while a decimal point is recognised as the fractional
separator (`"1.5"` gives `3/2`) and any other separator splits the
literals (`"1;5"` gives two values). -/
theorem extract_numbers_comma_merge :
    (∀ a b : String, extractNumbers (a ++ "," ++ b) = extractNumbers (a ++ b)) ∧
    extractNumbers "1,5" = [15] ∧
    extractNumbers "1.5" = [3 / 2] ∧
    extractNumbers "1;5" = [1, 5] := by
  refine ⟨?_, ?_, ?_, ?_⟩
  · intro a b
    have hdata : (a ++ "," ++ b).data.filter (fun c => c ≠ ',') =
        (a ++ b).data.filter (fun c => c ≠ ',') := by
      have h1 : (a ++ "," ++ b).data = a.data ++ [','] ++ b.data := by
        rw [String.data_append, String.data_append]
      have h2 : (a ++ b).data = a.data ++ b.data := String.data_append a b
      rw [h1, h2, List.filter_append, List.filter_append, List.filter_append]
      simp
    rw [extractNumbers, extractNumbers, hdata]
  · rw [extractNumbers_eq_of_scan "1,5" [(['1', '5'], [])] (by decide)]
    simp [tokenVal, digitsToNat]
  · rw [extractNumbers_eq_of_scan "1.5" [(['1'], ['5'])] (by decide)]
    simp [tokenVal, digitsToNat]
    norm_num
  · rw [extractNumbers_eq_of_scan "1;5" [(['1'], []), (['5'], [])] (by decide)]
    simp [tokenVal, digitsToNat]

/-- C1: when retrieval is non-empty and both the claim text and the
top-retrieved statement contain a numeric literal, `classify_claim`
returns verdict `"True"` when the relative difference of the first
literals is at most `1/5` (the source's `0.2`) and `"False"` when it
exceeds `1/5`; in both cases the evidence is the statements of the first
three retrieved entries, hence has length in `(0, 3]`. -/
theorem classify_claim_numeric (retr : String → List RetrievedFact)
    (claim : String) (top : RetrievedFact) (rest : List RetrievedFact)
    (hr : retr claim = top :: rest)
    (c f : ℚ) (cs fs : List ℚ)
    (hc : extractNumbers claim = c :: cs)
    (hf : extractNumbers top.statement = f :: fs) :
    (|c - f| / max |f| (1 / 1000000) ≤ 1 / 5 →
      (classifyClaim retr claim).verdict = "True") ∧
    (1 / 5 < |c - f| / max |f| (1 / 1000000) →
      (classifyClaim retr claim).verdict = "False") ∧
    (classifyClaim retr claim).evidence =
      ((top :: rest).take 3).map (fun fact => fact.statement) ∧
    0 < (classifyClaim retr claim).evidence.length ∧
    (classifyClaim retr claim).evidence.length ≤ 3 := by
  have hcl : classifyClaim retr claim = classifyClaimOn (top :: rest) claim := by
    rw [classifyClaim, hr]
  simp only [hcl, classifyClaimOn, hc, hf]
  by_cases hle : |c - f| / max |f| (1 / 1000000) ≤ 1 / 5
  · rw [if_pos hle]
    refine ⟨fun _ => rfl, fun hgt => absurd hle (not_le.2 hgt), rfl, ?_, ?_⟩
    · simp only [List.length_map, List.length_take, List.length_cons]
      omega
    · simp only [List.length_map, List.length_take, List.length_cons]
      omega
  · rw [if_neg hle]
    refine ⟨fun h => absurd h hle, fun _ => rfl, rfl, ?_, ?_⟩
    · simp only [List.length_map, List.length_take, List.length_cons]
      omega
    · simp only [List.length_map, List.length_take, List.length_cons]
      omega

/-- C1 witness: a claim `"40"` against a single retrieved fact whose
statement is `"40"`; the relative difference is `0`, so the verdict is
`"True"`. -/
theorem classify_claim_numeric_witness :
    retrForty "40" = [factForty] ∧
    extractNumbers "40" = [40] ∧
    extractNumbers factForty.statement = [40] ∧
    |(40:ℚ) - 40| / max |(40:ℚ)| (1 / 1000000) ≤ 1 / 5 ∧
    (classifyClaim retrForty "40").verdict = "True" := by
  have hle : |(40:ℚ) - 40| / max |(40:ℚ)| (1 / 1000000) ≤ 1 / 5 := by
    rw [sub_self, abs_zero, zero_div]; norm_num
  exact ⟨rfl, extractNumbers_40, extractNumbers_40, hle,
    (classify_claim_numeric retrForty "40" factForty [] rfl 40 40 [] []
      extractNumbers_40 extractNumbers_40).1 hle⟩

/-- C4: `classify_claim` returns verdict `"Unverifiable"` exactly when
retrieval returns no results or the claim text or the top-retrieved
statement contains no numeric literal, and whenever the verdict is
`"Unverifiable"` the evidence list is empty. -/
theorem classify_claim_unverifiable (retr : String → List RetrievedFact) (claim : String) :
    ((classifyClaim retr claim).verdict = "Unverifiable" ↔
      retr claim = [] ∨ extractNumbers claim = [] ∨
        ∃ top rest, retr claim = top :: rest ∧ extractNumbers top.statement = []) ∧
    ((classifyClaim retr claim).verdict = "Unverifiable" →
      (classifyClaim retr claim).evidence = []) := by
  rcases hr : retr claim with _ | ⟨top, rest⟩
  · have hcl : classifyClaim retr claim = classifyClaimOn [] claim := by
      rw [classifyClaim, hr]
    exact ⟨by simp [hcl, classifyClaimOn], fun _ => by simp [hcl, classifyClaimOn]⟩
  · have hcl : classifyClaim retr claim = classifyClaimOn (top :: rest) claim := by
      rw [classifyClaim, hr]
    rcases hc : extractNumbers claim with _ | ⟨c, cs⟩
    · exact ⟨by simp [hcl, classifyClaimOn, hc],
        fun _ => by simp [hcl, classifyClaimOn, hc]⟩
    · rcases hf : extractNumbers top.statement with _ | ⟨f, fs⟩
      · refine ⟨?_, fun _ => by simp [hcl, classifyClaimOn, hc, hf]⟩
        have hlhs : (classifyClaim retr claim).verdict = "Unverifiable" := by
          simp [hcl, classifyClaimOn, hc, hf]
        exact iff_of_true hlhs (Or.inr (Or.inr ⟨top, rest, rfl, hf⟩))
      · have hrhs : ¬(top :: rest = [] ∨ c :: cs = [] ∨
            ∃ top' rest', top :: rest = top' :: rest' ∧
              extractNumbers top'.statement = []) := by
          intro h
          rcases h with h | h | ⟨top', rest', heq, hfe⟩
          · exact List.cons_ne_nil top rest h
          · exact List.cons_ne_nil c cs h
          · rw [List.cons.injEq] at heq
            rw [← heq.1, hf] at hfe
            exact List.cons_ne_nil f fs hfe
        simp only [hcl, classifyClaimOn, hc, hf]
        by_cases hle : |c - f| / max |f| (1 / 1000000) ≤ 1 / 5
        · rw [if_pos hle]
          exact ⟨iff_of_false
              (fun h => (by decide : ¬("True" : String) = "Unverifiable") h) hrhs,
            fun h => absurd h
              (fun h => (by decide : ¬("True" : String) = "Unverifiable") h)⟩
        · rw [if_neg hle]
          exact ⟨iff_of_false
              (fun h => (by decide : ¬("False" : String) = "Unverifiable") h) hrhs,
            fun h => absurd h
              (fun h => (by decide : ¬("False" : String) = "Unverifiable") h)⟩

/-- The `claim` field of every record produced by the classifier is the
classified claim text. -/
theorem classifyClaimOn_claim_field (retrieved : List RetrievedFact) (s : String) :
    (classifyClaimOn retrieved s).claim = s := by
  rcases retrieved with _ | ⟨top, rest⟩
  · rfl
  · rw [classifyClaimOn]
    rcases extractNumbers s with _ | ⟨c, cs⟩
    · rfl
    · rcases extractNumbers top.statement with _ | ⟨f, fs⟩
      · rfl
      · dsimp only
        split
        · rfl
        · rfl

/-- `fact_check_text` is the per-claim classification map: the early
return on an empty claim list coincides with mapping over it. -/
theorem factCheckText_eq_map (nlp : NLP) (retr : String → List RetrievedFact)
    (text : String) :
    factCheckText nlp retr text =
      (extractClaims nlp text).map (fun c => classifyClaim retr c.sentence) := by
  unfold factCheckText
  rcases h : extractClaims nlp text with _ | ⟨c, cs⟩ <;> simp [h]

/-- C6: `fact_check_text` returns one record per extracted claim, in
extraction order, and the record at position `i` is the classification of
the claim at position `i`, whose `claim` field is that claim's sentence. -/
theorem fact_check_text_per_claim (nlp : NLP) (retr : String → List RetrievedFact)
    (text : String) :
    (factCheckText nlp retr text).length = (extractClaims nlp text).length ∧
    ∀ (i : Nat) (c : Claim), (extractClaims nlp text)[i]? = some c →
      (factCheckText nlp retr text)[i]? = some (classifyClaim retr c.sentence) ∧
      ((factCheckText nlp retr text)[i]?).map VerdictRecord.claim = some c.sentence := by
  rw [factCheckText_eq_map]
  refine ⟨by simp, ?_⟩
  intro i c hc
  have h1 : ((extractClaims nlp text).map
      (fun c => classifyClaim retr c.sentence))[i]? =
      some (classifyClaim retr c.sentence) := by
    rw [List.getElem?_map, hc]
    rfl
  refine ⟨h1, ?_⟩
  rw [h1, Option.map_some']
  rw [show (classifyClaim retr c.sentence).claim = c.sentence from
    classifyClaimOn_claim_field _ _]

/-- C6 witness: one extracted claim, its record sits at position `0` and
carries the claim sentence. -/
theorem fact_check_text_per_claim_witness :
    (extractClaims nlpOne "India grows.")[0]? =
      some { sentence := "India grows.", entities := ["India"] } ∧
    (factCheckText nlpOne retrEmpty "India grows.")[0]? =
      some (classifyClaim retrEmpty "India grows.") ∧
    ((factCheckText nlpOne retrEmpty "India grows.")[0]?).map VerdictRecord.claim =
      some "India grows." := by
  have h0 : (extractClaims nlpOne "India grows.")[0]? =
      some { sentence := "India grows.", entities := ["India"] } := by decide
  have h1 := (fact_check_text_per_claim nlpOne retrEmpty "India grows.").2 0
    { sentence := "India grows.", entities := ["India"] } h0
  exact ⟨h0, h1.1, h1.2⟩

/-- C5: a sentence is selected as a claim exactly when it has at least one
recognised entity and at least one verb token; when no sentence qualifies,
`extract_claims` returns the empty list and `fact_check_text` returns the
empty list, as normal outcomes. -/
theorem extract_claims_iff (nlp : NLP) (retr : String → List RetrievedFact)
    (text : String) :
    (∀ cl : Claim, cl ∈ extractClaims nlp text ↔
      ∃ s ∈ nlp.sents text, nlp.entsOf s ≠ [] ∧ nlp.hasVerb s = true ∧
        cl = { sentence := pyStrip s, entities := nlp.entsOf s }) ∧
    ((∀ s ∈ nlp.sents text, nlp.entsOf s = [] ∨ nlp.hasVerb s = false) →
      extractClaims nlp text = [] ∧ factCheckText nlp retr text = []) := by
  constructor
  · intro cl
    rw [extractClaims, List.mem_filterMap]
    constructor
    · rintro ⟨s, hs, hsome⟩
      by_cases hcond : nlp.entsOf s ≠ [] ∧ nlp.hasVerb s
      · rw [if_pos hcond] at hsome
        exact ⟨s, hs, hcond.1, hcond.2, (Option.some_inj.1 hsome).symm⟩
      · rw [if_neg hcond] at hsome
        exact absurd hsome (by simp)
    · rintro ⟨s, hs, hents, hverb, rfl⟩
      exact ⟨s, hs, by rw [if_pos ⟨hents, hverb⟩]⟩
  · intro h
    have hempty : extractClaims nlp text = [] := by
      rw [extractClaims, List.filterMap_eq_nil_iff]
      intro s hs
      rcases h s hs with h1 | h1
      · rw [if_neg]
        simp [h1]
      · rw [if_neg]
        simp [h1]
    exact ⟨hempty, by rw [factCheckText_eq_map, hempty]; rfl⟩

/-- C5 witness: a text whose only sentence has a verb but no entity is not
selected, and the pipeline returns the empty list. -/
theorem extract_claims_iff_witness :
    (∀ s ∈ nlpNoEnts.sents "It rains.", nlpNoEnts.entsOf s = [] ∨
      nlpNoEnts.hasVerb s = false) ∧
    extractClaims nlpNoEnts "It rains." = [] ∧
    factCheckText nlpNoEnts retrEmpty "It rains." = [] := by
  have h := (extract_claims_iff nlpNoEnts retrEmpty "It rains.").2
    (fun s _ => Or.inl rfl)
  exact ⟨fun s _ => Or.inl rfl, h.1, h.2⟩

/-- C4 witness: the unverifiable-verdict theorem at a claim with empty
retrieval — the verdict is `"Unverifiable"` and the evidence is empty. -/
theorem classify_claim_unverifiable_witness :
    (classifyClaim retrEmpty "x").verdict = "Unverifiable" ∧
    (classifyClaim retrEmpty "x").evidence = [] :=
  ⟨rfl, (classify_claim_unverifiable retrEmpty "x").2 rfl⟩

/-- C3 counterexample: two claims are extracted and classifying the first
raises; `fact_check_text` aborts with that error — no result list is
produced, the failing claim does not degrade to an Unverifiable record and
the second claim is never classified. -/
theorem fact_check_isolation_cex :
    factCheckTextE nlpTwo retrBoom "text" = Except.error "boom" := rfl

/-- The list comprehension of `fact_check_text` propagates the first
classification error: once every earlier claim classified successfully and
one claim raises, the whole map is that error. -/
theorem mapClassifyE_error (retrE : String → Except String (List RetrievedFact))
    (e : String) :
    ∀ (pre : List Claim) (c : Claim) (post : List Claim),
      (∀ p ∈ pre, ∃ r, classifyClaimE retrE p.sentence = Except.ok r) →
      classifyClaimE retrE c.sentence = Except.error e →
      mapClassifyE retrE (pre ++ c :: post) = Except.error e := by
  intro pre
  induction pre with
  | nil =>
    intro c post _ herr
    rw [List.nil_append, mapClassifyE, herr]
  | cons p pre ih =>
    intro c post hpre herr
    rcases hpre p (List.mem_cons_self p pre) with ⟨r, hr⟩
    have ih2 := ih c post (fun q hq => hpre q (List.mem_cons_of_mem p hq)) herr
    rw [List.cons_append, mapClassifyE, hr, ih2]

/-- C3 amended: a failure raised while classifying one claim aborts
`fact_check_text` — the error propagates and the remaining claims are not
classified; no per-claim isolation exists in the code. -/
theorem fact_check_error_propagates (nlp : NLP)
    (retrE : String → Except String (List RetrievedFact)) (text : String)
    (e : String) (pre : List Claim) (c : Claim) (post : List Claim)
    (hclaims : extractClaims nlp text = pre ++ c :: post)
    (hpre : ∀ p ∈ pre, ∃ r, classifyClaimE retrE p.sentence = Except.ok r)
    (herr : classifyClaimE retrE c.sentence = Except.error e) :
    factCheckTextE nlp retrE text = Except.error e := by
  show (if (extractClaims nlp text).isEmpty then Except.ok []
    else mapClassifyE retrE (extractClaims nlp text)) = Except.error e
  rw [hclaims, if_neg (by simp)]
  exact mapClassifyE_error retrE e pre c post hpre herr

/-- C3 amended witness: the propagation theorem at the concrete two-claim
input of the counterexample. -/
theorem fact_check_error_propagates_witness :
    extractClaims nlpTwo "text" =
      [] ++ ({ sentence := "A one.", entities := ["E"] } : Claim) ::
        [{ sentence := "B two.", entities := ["E"] }] ∧
    classifyClaimE retrBoom "A one." = Except.error "boom" ∧
    factCheckTextE nlpTwo retrBoom "text" = Except.error "boom" :=
  ⟨rfl, rfl,
    fact_check_error_propagates nlpTwo retrBoom "text" "boom" []
      { sentence := "A one.", entities := ["E"] }
      [{ sentence := "B two.", entities := ["E"] }]
      rfl (fun p hp => absurd hp (List.not_mem_nil p)) rfl⟩

/-- The search result is sorted by ascending distance with equal-distance
ties in insertion order. -/
theorem searchFlat_sorted (vecs : List (List ℚ)) (q : List ℚ) (k : Nat) :
    List.Pairwise hitLE (searchFlat vecs q k) := by
  rw [searchFlat]
  exact (List.sorted_insertionSort hitLE _).sublist (List.take_sublist _ _)

/-- Every search hit carries a position inside the stored vectors and the
squared L2 distance of the query to the vector at that position. -/
theorem searchFlat_mem (vecs : List (List ℚ)) (q : List ℚ) (k : Nat) :
    ∀ p ∈ searchFlat vecs q k,
      p.2 < vecs.length ∧ p.1 = l2sq q (vecs.getD p.2 []) := by
  intro p hp
  rw [searchFlat] at hp
  have hp2 : p ∈ List.insertionSort hitLE
      (vecs.enum.map (fun pr => (l2sq q pr.2, pr.1))) :=
    (List.take_sublist _ _).subset hp
  have hp3 : p ∈ vecs.enum.map (fun pr => (l2sq q pr.2, pr.1)) :=
    (List.perm_insertionSort hitLE _).subset hp2
  rcases List.mem_map.1 hp3 with ⟨pr, hpr, rfl⟩
  have h4 : vecs[pr.1]? = some pr.2 := List.mem_enum_iff_getElem?.1 hpr
  have h5 : pr.1 < vecs.length := by
    rcases List.getElem?_eq_some.1 h4 with ⟨hlt, _⟩
    exact hlt
  refine ⟨h5, ?_⟩
  have h6 : vecs.getD pr.1 [] = pr.2 := by
    rw [List.getD_eq_getD_get?, List.get?_eq_getElem?, h4]
    rfl
  rw [h6]

/-- C2: `retrieve` returns at most `k` records; the search hits are in
ascending distance order with ties by insertion position, hence the
returned scores are non-decreasing; every hit position indexes a metadata
row and carries the raw L2 distance to the vector stored there; and the
result is exactly those rows with the distance attached as `score`. -/
theorem retrieve_spec (vs : VectorStore)
    (hal : vs.index.length = vs.metadata.length) (query : String) (k : Nat) :
    (vs.retrieve query k).length ≤ k ∧
    List.Pairwise hitLE (searchFlat vs.index (vs.embedder query) k) ∧
    List.Pairwise (fun a b => a.score ≤ b.score) (vs.retrieve query k) ∧
    (∀ p ∈ searchFlat vs.index (vs.embedder query) k,
      p.2 < vs.metadata.length ∧
      p.1 = l2sq (vs.embedder query) (vs.index.getD p.2 [])) ∧
    vs.retrieve query k =
      (searchFlat vs.index (vs.embedder query) k).map
        (fun p => attachScore (vs.metadata.getD p.2 defaultMeta) p.1) := by
  refine ⟨?_, searchFlat_sorted _ _ _, ?_, ?_, rfl⟩
  · show ((searchFlat vs.index (vs.embedder query) k).map _).length ≤ k
    rw [List.length_map, searchFlat]
    exact List.length_take_le _ _
  · show List.Pairwise (fun a b => a.score ≤ b.score)
      ((searchFlat vs.index (vs.embedder query) k).map
        (fun p => attachScore (vs.metadata.getD p.2 defaultMeta) p.1))
    refine List.pairwise_map.2 ((searchFlat_sorted _ _ _).imp ?_)
    intro a b hab
    exact hab.elim le_of_lt (fun x => le_of_eq x.1)
  · intro p hp
    rcases searchFlat_mem vs.index (vs.embedder query) k p hp with ⟨h1, h2⟩
    exact ⟨hal ▸ h1, h2⟩

/-- C2 witness: the retrieval theorem at a concrete aligned two-row store. -/
theorem retrieve_spec_witness :
    vsTwo.index.length = vsTwo.metadata.length ∧
    (vsTwo.retrieve "q" 5).length ≤ 5 ∧
    List.Pairwise (fun a b => a.score ≤ b.score) (vsTwo.retrieve "q" 5) :=
  ⟨rfl, (retrieve_spec vsTwo rfl "q" 5).1, (retrieve_spec vsTwo rfl "q" 5).2.2.1⟩

/-- Freshly allocated cells are read back unchanged: mapping `readDict`
over the new addresses of an append returns the appended rows. -/
theorem map_readDict_range' (h rows : List Dict) :
    (List.range' h.length rows.length).map (readDict (h ++ rows)) = rows := by
  induction rows generalizing h with
  | nil => rfl
  | cons r rest ih =>
    have hr : readDict (h ++ r :: rest) h.length = r := by
      rw [readDict, List.getD_append_right _ _ _ _ (le_refl _)]
      simp
    have hstep : h ++ r :: rest = (h ++ [r]) ++ rest := by simp
    show (h.length :: List.range' (h.length + 1) rest.length).map
      (readDict (h ++ r :: rest)) = r :: rest
    rw [List.map_cons, hr]
    have hlen : h.length + 1 = (h ++ [r]).length := by simp
    rw [hstep, hlen]
    exact congrArg (r :: ·) (ih (h ++ [r]))

/-- One retrieval call preserves the metadata addresses, the contents they
point to, and well-formedness; the heap only grows. -/
theorem retrieveH_preserves (st : RtState) (query : String) (k : Nat)
    (hwf : st.WF) :
    (retrieveH st query k).2.metaAddrs = st.metaAddrs ∧
    (∀ a ∈ st.metaAddrs,
      readDict (retrieveH st query k).2.heap a = readDict st.heap a) ∧
    (retrieveH st query k).2.WF := by
  refine ⟨rfl, ?_, ?_⟩
  · intro a ha
    show readDict (st.heap ++ _) a = readDict st.heap a
    rw [readDict, readDict, List.getD_append _ _ _ _ (hwf a ha)]
  · intro a ha
    show a < (st.heap ++ _).length
    rw [List.length_append]
    exact lt_of_lt_of_le (hwf a ha) (Nat.le_add_right _ _)

/-- The addresses returned by one retrieval call are fresh: none of them is
a metadata address. -/
theorem retrieveH_fresh (st : RtState) (query : String) (k : Nat)
    (hwf : st.WF) :
    ∀ r ∈ (retrieveH st query k).1, ∀ a ∈ st.metaAddrs, a ≠ r := by
  intro r hr a ha
  have h1 : st.heap.length ≤ r := (List.mem_range'_1.1 hr).1
  exact Nat.ne_of_lt (lt_of_lt_of_le (hwf a ha) h1)

/-- Any number of retrieval calls leaves the metadata addresses and the
rows they point to unchanged. -/
theorem applyRetrieves_frame (calls : List (String × Nat)) :
    ∀ st : RtState, st.WF →
      (applyRetrieves st calls).metaAddrs = st.metaAddrs ∧
      (∀ a ∈ st.metaAddrs,
        readDict (applyRetrieves st calls).heap a = readDict st.heap a) ∧
      (applyRetrieves st calls).WF := by
  induction calls with
  | nil => exact fun st hwf => ⟨rfl, fun a _ => rfl, hwf⟩
  | cons cl cls ih =>
    intro st hwf
    have h1 := retrieveH_preserves st cl.1 cl.2 hwf
    have h2 := ih ((retrieveH st cl.1 cl.2).2) h1.2.2
    have happ : applyRetrieves st (cl :: cls) =
        applyRetrieves ((retrieveH st cl.1 cl.2).2) cls := rfl
    refine ⟨?_, ?_, happ ▸ h2.2.2⟩
    · rw [happ, h2.1, h1.1]
    · intro a ha
      have ha' : a ∈ (retrieveH st cl.1 cl.2).2.metaAddrs := by
        rw [h1.1]; exact ha
      rw [happ, h2.2.1 a ha', h1.2.1 a ha]

/-- C8: each record returned by `retrieve` is an independent copy — the
fresh cells hold the metadata row of the hit position with `score` set,
the metadata table reads the same before and after the call, a caller-side
overwrite of any returned cell leaves every metadata row untouched, and
any number of retrieve calls leaves the table identical. -/
theorem retrieve_frame (st : RtState) (query : String) (k : Nat) (hwf : st.WF) :
    (retrieveH st query k).2.metaAddrs = st.metaAddrs ∧
    (∀ a ∈ st.metaAddrs,
      readDict (retrieveH st query k).2.heap a = readDict st.heap a) ∧
    ((retrieveH st query k).1.map (readDict (retrieveH st query k).2.heap) =
      (searchFlat st.index (st.embedder query) k).map (fun p =>
        Dict.setKey (readDict st.heap (st.metaAddrs.getD p.2 0)) "score"
          (Val.num p.1))) ∧
    (∀ r ∈ (retrieveH st query k).1, ∀ d : Dict, ∀ a ∈ st.metaAddrs,
      readDict ((retrieveH st query k).2.heap.set r d) a = readDict st.heap a) ∧
    (∀ calls : List (String × Nat),
      (applyRetrieves st calls).metaAddrs = st.metaAddrs ∧
      ∀ a ∈ st.metaAddrs,
        readDict (applyRetrieves st calls).heap a = readDict st.heap a) := by
  refine ⟨rfl, (retrieveH_preserves st query k hwf).2.1, ?_, ?_, ?_⟩
  · exact map_readDict_range' st.heap _
  · intro r hr d a ha
    have hne : a ≠ r := retrieveH_fresh st query k hwf r hr a ha
    have h1 : ((retrieveH st query k).2.heap.set r d).getD a [] =
        (retrieveH st query k).2.heap.getD a [] := by
      rw [List.getD_eq_getD_get?, List.getD_eq_getD_get?,
        List.get?_eq_getElem?, List.get?_eq_getElem?,
        List.getElem?_set_ne (fun h => hne h.symm)]
    show ((retrieveH st query k).2.heap.set r d).getD a [] = readDict st.heap a
    rw [h1]
    exact (retrieveH_preserves st query k hwf).2.1 a ha
  · intro calls
    have h := applyRetrieves_frame calls st hwf
    exact ⟨h.1, h.2.1⟩

/-- C7: `classify_claim` is deterministic — with the same loaded index,
metadata table and embedding model, a second call on the same claim text
returns the identical record (same verdict, reasoning, evidence and
retrieved facts), even though the first call grew the heap with its
transient copies. -/
theorem classify_idempotent (st : RtState) (claim : String)
    (hwf : st.WF) (hal : st.index.length = st.metaAddrs.length) :
    (classifyH ((classifyH st claim).2) claim).1 = (classifyH st claim).1 := by
  have hst2 : (classifyH st claim).2 = (retrieveH st claim TOP_K).2 := rfl
  have hA1 : (retrieveH st claim TOP_K).1.map
      (readDict (retrieveH st claim TOP_K).2.heap) =
      (searchFlat st.index (st.embedder claim) TOP_K).map (fun p =>
        Dict.setKey (readDict st.heap (st.metaAddrs.getD p.2 0)) "score"
          (Val.num p.1)) :=
    map_readDict_range' st.heap _
  have hA2 : (retrieveH ((retrieveH st claim TOP_K).2) claim TOP_K).1.map
      (readDict (retrieveH ((retrieveH st claim TOP_K).2) claim TOP_K).2.heap) =
      (searchFlat st.index (st.embedder claim) TOP_K).map (fun p =>
        Dict.setKey (readDict (retrieveH st claim TOP_K).2.heap
          (st.metaAddrs.getD p.2 0)) "score" (Val.num p.1)) :=
    map_readDict_range' (retrieveH st claim TOP_K).2.heap _
  have key : (retrieveH ((retrieveH st claim TOP_K).2) claim TOP_K).1.map
      (readDict (retrieveH ((retrieveH st claim TOP_K).2) claim TOP_K).2.heap) =
      (retrieveH st claim TOP_K).1.map
        (readDict (retrieveH st claim TOP_K).2.heap) := by
    rw [hA1, hA2]
    apply List.map_congr_left
    intro p hp
    have hmem : st.metaAddrs.getD p.2 0 ∈ st.metaAddrs := by
      have hlt : p.2 < st.index.length := (searchFlat_mem _ _ _ p hp).1
      rw [hal] at hlt
      rw [List.getD_eq_getElem _ _ hlt]
      exact List.getElem_mem hlt
    exact congrArg (fun d => Dict.setKey d "score" (Val.num p.1))
      ((retrieveH_preserves st claim TOP_K hwf).2.1 _ hmem)
  have h1 : (classifyH st claim).1 =
      classifyClaimOn (((retrieveH st claim TOP_K).1.map
        (readDict (retrieveH st claim TOP_K).2.heap)).map dictToFact) claim := rfl
  have h2 : (classifyH ((retrieveH st claim TOP_K).2) claim).1 =
      classifyClaimOn
        (((retrieveH ((retrieveH st claim TOP_K).2) claim TOP_K).1.map
          (readDict
            (retrieveH ((retrieveH st claim TOP_K).2) claim TOP_K).2.heap)).map
          dictToFact) claim := rfl
  rw [hst2, h2, h1, key]

/-- The concrete one-row store is well formed. -/
theorem stOne_wf : stOne.WF := by
  unfold RtState.WF
  decide

/-- C7 witness: the idempotence theorem at the concrete one-row store. -/
theorem classify_idempotent_witness :
    stOne.WF ∧ stOne.index.length = stOne.metaAddrs.length ∧
    (classifyH ((classifyH stOne "q").2) "q").1 = (classifyH stOne "q").1 :=
  ⟨stOne_wf, rfl, classify_idempotent stOne "q" stOne_wf rfl⟩

/-- C8 witness: the frame theorem at the concrete one-row store — the
metadata addresses and the row at address `0` are unchanged by a
retrieval. -/
theorem retrieve_frame_witness :
    stOne.WF ∧
    (retrieveH stOne "q" 5).2.metaAddrs = stOne.metaAddrs ∧
    readDict (retrieveH stOne "q" 5).2.heap 0 = readDict stOne.heap 0 :=
  ⟨stOne_wf, (retrieve_frame stOne "q" 5 stOne_wf).1,
    (retrieve_frame stOne "q" 5 stOne_wf).2.1 0 (by decide)⟩

end FactCheck
